import Mathlib

/-!
Verification of the topology-graph subsystem of the admin-ui repository
(`src/pages/ThemeEditor.tsx`, component `TopologyGraph`): the topology
resolver that turns exchange/queue/binding collections into node and edge
lists, and the interaction controller owning the view state
(zoom, pan, selection, labels, filter).

All definitions below are shallow embeddings of the TypeScript source.
-/

/-- Exchange types, the closed enum from `ExchangeType`. -/
inductive ExchangeType where
  | direct
  | fanout
  | topic
  | headers
  | xDelayedMessage
  | xConsistentHash
deriving DecidableEq

/-- An exchange entity, as in the data model used by `TopologyGraph`. -/
structure Exchange where
  id : String
  name : String
  type : ExchangeType
deriving DecidableEq

/-- A queue entity, as in the data model used by `TopologyGraph`. -/
structure Queue where
  id : String
  name : String
  type : String
  messagesTotal : Nat
  consumers : Nat
  healthScore : Nat
deriving DecidableEq

/-- A binding entity: `source`/`destination` reference entities by id or name. -/
structure Binding where
  id : String
  source : String
  destination : String
  routingKey : String
deriving DecidableEq

/-- The kind tag of a derived node (`'exchange' | 'queue'` in the source). -/
inductive NodeType where
  | exchange
  | queue
deriving DecidableEq

/-- A derived graph node (`interface Node` in `ThemeEditor.tsx`):
id, type tag, display name, position, and the underlying entity record. -/
structure Node where
  id : String
  type : NodeType
  name : String
  x : Int
  y : Int
  data : Exchange ⊕ Queue
deriving DecidableEq

/-- A derived graph edge (`interface Edge`): endpoints are node ids. -/
structure Edge where
  id : String
  source : String
  target : String
  routingKey : String
deriving DecidableEq

/-- The entity-type filter (`'all' | 'exchange' | 'queue'`). -/
inductive FilterType where
  | all
  | exchange
  | queue
deriving DecidableEq

/-- The `.name` field read off a node's `data` record: the source reads
`(n.data as Exchange).name` / `(n.data as Queue).name`, i.e. the name of
whichever entity record the node carries. -/
def Node.dataName (n : Node) : String :=
  match n.data with
  | .inl e => e.name
  | .inr q => q.name

/-- Node built for exchange at position `index` within the exchange list
(`x = 200`, `y = 120 + index * 140`). -/
def mkExchangeNode (index : Nat) (e : Exchange) : Node :=
  { id := e.id
    type := .exchange
    name := e.name
    x := 200
    y := 120 + (index : Int) * 140
    data := .inl e }

/-- Node built for queue at position `index` within the queue list
(`x = 650`, `y = 100 + index * 110`). -/
def mkQueueNode (index : Nat) (q : Queue) : Node :=
  { id := q.id
    type := .queue
    name := q.name
    x := 650
    y := 100 + (index : Int) * 110
    data := .inr q }

/-- The exchange portion of the node list: the source's
`exchanges.forEach((exchange, index) => { if (filterType === 'queue') return; nodeList.push(...) })`. -/
def exchangeNodes (exchanges : List Exchange) (filterType : FilterType) : List Node :=
  exchanges.enum.filterMap fun p =>
    if filterType = FilterType.queue then none
    else some (mkExchangeNode p.1 p.2)

/-- The queue portion of the node list: the source's
`queues.forEach((queue, index) => { if (filterType === 'exchange') return; nodeList.push(...) })`. -/
def queueNodes (queues : List Queue) (filterType : FilterType) : List Node :=
  queues.enum.filterMap fun p =>
    if filterType = FilterType.exchange then none
    else some (mkQueueNode p.1 p.2)

/-- The source-endpoint predicate used in `nodeList.find` for `binding.source`:
`n.id === binding.source || n.name === binding.source ||
 (n.type === 'exchange' && (n.data as Exchange).name === binding.source)`. -/
def matchesSource (r : String) (n : Node) : Bool :=
  n.id == r || n.name == r || (n.type == NodeType.exchange && n.dataName == r)

/-- The target-endpoint predicate used in `nodeList.find` for `binding.destination`:
`n.id === binding.destination || n.name === binding.destination ||
 (n.type === 'queue' && (n.data as Queue).name === binding.destination)`. -/
def matchesTarget (r : String) (n : Node) : Bool :=
  n.id == r || n.name == r || (n.type == NodeType.queue && n.dataName == r)

/-- Edge construction for one binding: find source and target in the node
list; if both are found, emit the edge, else emit nothing. -/
def edgeFor (nodeList : List Node) (b : Binding) : Option Edge :=
  match nodeList.find? (matchesSource b.source),
        nodeList.find? (matchesTarget b.destination) with
  | some s, some t =>
      some { id := b.id, source := s.id, target := t.id, routingKey := b.routingKey }
  | _, _ => none

/-- The full node list: exchanges pushed first, then queues. -/
def resolveNodes (exchanges : List Exchange) (queues : List Queue)
    (filterType : FilterType) : List Node :=
  exchangeNodes exchanges filterType ++ queueNodes queues filterType

/-- The topology resolver: the body of the `useMemo` computing
`{ nodes, edges }` from `(exchanges, queues, bindings, filterType)`. -/
def resolve (exchanges : List Exchange) (queues : List Queue)
    (bindings : List Binding) (filterType : FilterType) :
    List Node × List Edge :=
  (resolveNodes exchanges queues filterType,
   bindings.filterMap (edgeFor (resolveNodes exchanges queues filterType)))

/-- The view state owned by the interaction controller: the `useState`
fields of `TopologyGraph`. -/
structure ViewState where
  zoom : ℚ
  pan : ℚ × ℚ
  selectedNodeId : Option String
  showLabels : Bool
  filterType : FilterType
deriving DecidableEq

/-- Initial view state at component mount. -/
def defaultViewState : ViewState :=
  { zoom := 1
    pan := (0, 0)
    selectedNodeId := none
    showLabels := true
    filterType := .all }

/-- `handleZoomIn`: `setZoom(z => Math.min(z + 0.2, 2))`. -/
def zoomIn (s : ViewState) : ViewState :=
  { s with zoom := min (s.zoom + 1/5) 2 }

/-- `handleZoomOut`: `setZoom(z => Math.max(z - 0.2, 0.5))`. -/
def zoomOut (s : ViewState) : ViewState :=
  { s with zoom := max (s.zoom - 1/5) (1/2) }

/-- `handleResetView`: `setZoom(1); setPan({x: 0, y: 0})`. -/
def resetView (s : ViewState) : ViewState :=
  { s with zoom := 1, pan := (0, 0) }

/-- Node click handler:
`setSelectedNode(isSelected ? null : node.id)` with
`isSelected = selectedNode === node.id`. -/
def selectNode (i : String) (s : ViewState) : ViewState :=
  { s with selectedNodeId := if s.selectedNodeId = some i then none else some i }

/-- Filter select `onChange`: calls only `setFilterType`. -/
def setFilterType (t : FilterType) (s : ViewState) : ViewState :=
  { s with filterType := t }

/-- A user zoom/reset action, for stating the zoom invariant over
arbitrary action sequences. -/
inductive ZoomOp where
  | zin
  | zout
  | reset
deriving DecidableEq

/-- Apply one zoom action. -/
def applyZoomOp (op : ZoomOp) (s : ViewState) : ViewState :=
  match op with
  | .zin => zoomIn s
  | .zout => zoomOut s
  | .reset => resetView s

/-- Apply a sequence of zoom actions from left to right. -/
def applyZoomOps (ops : List ZoomOp) (s : ViewState) : ViewState :=
  ops.foldl (fun s op => applyZoomOp op s) s

/-! ### Helper lemmas -/

/-- Every node produced by `exchangeNodes` carries the `exchange` type tag. -/
theorem mem_exchangeNodes_type {exs : List Exchange} {ft : FilterType} {n : Node}
    (h : n ∈ exchangeNodes exs ft) : n.type = NodeType.exchange := by
  rw [exchangeNodes, List.mem_filterMap] at h
  obtain ⟨⟨i, e⟩, -, h2⟩ := h
  split at h2
  · exact absurd h2 (by simp)
  · cases h2
    rfl

/-- Every node produced by `queueNodes` carries the `queue` type tag. -/
theorem mem_queueNodes_type {qs : List Queue} {ft : FilterType} {n : Node}
    (h : n ∈ queueNodes qs ft) : n.type = NodeType.queue := by
  rw [queueNodes, List.mem_filterMap] at h
  obtain ⟨⟨i, q⟩, -, h2⟩ := h
  split at h2
  · exact absurd h2 (by simp)
  · cases h2
    rfl

/-- With `filterType = 'queue'`, no exchange node is produced. -/
theorem exchangeNodes_queue_nil (exs : List Exchange) :
    exchangeNodes exs FilterType.queue = [] := by
  rw [exchangeNodes, List.filterMap_eq_nil_iff]
  intro p _
  simp

/-- With `filterType = 'exchange'`, no queue node is produced. -/
theorem queueNodes_exchange_nil (qs : List Queue) :
    queueNodes qs FilterType.exchange = [] := by
  rw [queueNodes, List.filterMap_eq_nil_iff]
  intro p _
  simp

/-- If a member of the left part of an appended list satisfies the search
predicate, `find?` on the whole list answers from the left part. -/
theorem find?_append_of_mem_left {α : Type} {p : α → Bool} {A : List α}
    (B : List α) {n : α} (hn : n ∈ A) (hp : p n = true) :
    ∃ m, (A ++ B).find? p = some m ∧ m ∈ A := by
  induction A with
  | nil => cases hn
  | cons a A ih =>
    by_cases hpa : p a = true
    · exact ⟨a, by rw [List.cons_append, List.find?_cons_of_pos _ hpa], List.mem_cons_self a A⟩
    · rcases List.mem_cons.mp hn with rfl | hn2
      · exact absurd hp hpa
      · obtain ⟨m, hm, hmA⟩ := ih hn2
        refine ⟨m, ?_, List.mem_cons_of_mem a hmA⟩
        rw [List.cons_append, List.find?_cons_of_neg _ hpa]
        exact hm

/-- A successful `find?` returns the first element satisfying the
predicate: everything strictly before it fails the predicate. -/
theorem find?_eq_some_split {α : Type} {p : α → Bool} {l : List α} {n : α}
    (h : l.find? p = some n) :
    p n = true ∧ ∃ l₁ l₂, l = l₁ ++ n :: l₂ ∧ ∀ m ∈ l₁, p m = false := by
  induction l with
  | nil => cases h
  | cons a l ih =>
    by_cases hpa : p a = true
    · rw [List.find?_cons_of_pos _ hpa] at h
      cases h
      exact ⟨hpa, [], l, rfl, by intro m hm; cases hm⟩
    · rw [List.find?_cons_of_neg _ hpa] at h
      obtain ⟨hp, l₁, l₂, heq, hall⟩ := ih h
      refine ⟨hp, a :: l₁, l₂, by rw [heq, List.cons_append], ?_⟩
      intro m hm
      rcases List.mem_cons.mp hm with rfl | hm2
      · exact Bool.eq_false_iff.mpr hpa
      · exact hall m hm2

/-- Unfolding a successful edge construction into its two lookups. -/
theorem edgeFor_eq_some {nl : List Node} {b : Binding} {e : Edge}
    (h : edgeFor nl b = some e) :
    ∃ s t, nl.find? (matchesSource b.source) = some s ∧
      nl.find? (matchesTarget b.destination) = some t ∧
      e = { id := b.id, source := s.id, target := t.id, routingKey := b.routingKey } := by
  rw [edgeFor] at h
  split at h
  · next s t hs ht =>
    cases h
    exact ⟨s, t, hs, ht, rfl⟩
  · cases h

/-- Each single zoom action preserves the `[0.5, 2]` zoom bounds. -/
theorem zoom_step_bounds (op : ZoomOp) (s : ViewState)
    (h1 : 1/2 ≤ s.zoom) (h2 : s.zoom ≤ 2) :
    1/2 ≤ (applyZoomOp op s).zoom ∧ (applyZoomOp op s).zoom ≤ 2 := by
  cases op with
  | zin =>
    refine ⟨le_min (by linarith) (by norm_num), min_le_right _ _⟩
  | zout =>
    exact ⟨le_max_right _ _, max_le (by linarith) (by norm_num)⟩
  | reset =>
    exact ⟨by norm_num [applyZoomOp, resetView], by norm_num [applyZoomOp, resetView]⟩

/-- Any zoom-action sequence preserves the `[0.5, 2]` zoom bounds. -/
theorem applyZoomOps_bounds (ops : List ZoomOp) (s : ViewState)
    (h1 : 1/2 ≤ s.zoom) (h2 : s.zoom ≤ 2) :
    1/2 ≤ (applyZoomOps ops s).zoom ∧ (applyZoomOps ops s).zoom ≤ 2 := by
  induction ops generalizing s with
  | nil => exact ⟨h1, h2⟩
  | cons op rest ih =>
    obtain ⟨g1, g2⟩ := zoom_step_bounds op s h1 h2
    exact ih (applyZoomOp op s) g1 g2

/-! ### Claim theorems -/

/-- Claim C1: for every input, every edge in the resolver's output
references existing nodes: its `source` and `target` are each the id of
some node in the output node list, so no edge ever dangles. -/
theorem C1_edges_never_dangle (exchanges : List Exchange) (queues : List Queue)
    (bindings : List Binding) (ft : FilterType) (e : Edge)
    (he : e ∈ (resolve exchanges queues bindings ft).2) :
    e.source ∈ (resolve exchanges queues bindings ft).1.map Node.id ∧
    e.target ∈ (resolve exchanges queues bindings ft).1.map Node.id := by
  obtain ⟨b, hb, hfb⟩ := List.mem_filterMap.mp he
  obtain ⟨s, t, hs, ht, rfl⟩ := edgeFor_eq_some hfb
  exact ⟨List.mem_map.mpr ⟨s, List.mem_of_find?_eq_some hs, rfl⟩,
    List.mem_map.mpr ⟨t, List.mem_of_find?_eq_some ht, rfl⟩⟩

/-- Concrete instance of the no-dangling-edges theorem at the spec's
end-to-end example input. -/
theorem C1_edges_never_dangle_witness :
    ({ id := "b1", source := "e1", target := "q1", routingKey := "order.created" } : Edge).source
      ∈ (resolve [⟨"e1", "orders", .direct⟩] [⟨"q1", "orders.q", "classic", 10, 1, 90⟩]
          [⟨"b1", "orders", "orders.q", "order.created"⟩] .all).1.map Node.id ∧
    ({ id := "b1", source := "e1", target := "q1", routingKey := "order.created" } : Edge).target
      ∈ (resolve [⟨"e1", "orders", .direct⟩] [⟨"q1", "orders.q", "classic", 10, 1, 90⟩]
          [⟨"b1", "orders", "orders.q", "order.created"⟩] .all).1.map Node.id :=
  C1_edges_never_dangle _ _ _ _ _ (by decide)

/-- Claim C2 as stated is false on the code: the endpoint lookup searches
the whole node list, so a binding whose `source` matches only queue nodes
still yields an edge whose source is a queue node. Here both nodes are
queues (the node-type list is `[queue, queue]`), yet an edge is emitted. -/
theorem C2_counterexample :
    (resolve [] [⟨"q1", "n1", "classic", 0, 0, 100⟩, ⟨"q2", "n2", "classic", 0, 0, 100⟩]
        [⟨"b1", "q1", "q2", "rk"⟩] FilterType.all).2 =
      [{ id := "b1", source := "q1", target := "q2", routingKey := "rk" }] ∧
    (resolve [] [⟨"q1", "n1", "classic", 0, 0, 100⟩, ⟨"q2", "n2", "classic", 0, 0, 100⟩]
        [⟨"b1", "q1", "q2", "rk"⟩] FilterType.all).1.map Node.type =
      [NodeType.queue, NodeType.queue] := by
  decide

/-- Claim C2 (amended): the candidate list for both endpoints is the full
node list (exchanges first, then queues); whenever the two lookups over
that full list succeed — whatever the types of the found nodes — the edge
is emitted with those nodes' ids as endpoints. -/
theorem C2_candidates_full_node_list (exchanges : List Exchange) (queues : List Queue)
    (bindings : List Binding) (ft : FilterType) (b : Binding) (hb : b ∈ bindings)
    (s t : Node)
    (hs : (resolve exchanges queues bindings ft).1.find? (matchesSource b.source) = some s)
    (ht : (resolve exchanges queues bindings ft).1.find? (matchesTarget b.destination) = some t) :
    ({ id := b.id, source := s.id, target := t.id, routingKey := b.routingKey } : Edge)
      ∈ (resolve exchanges queues bindings ft).2 := by
  refine List.mem_filterMap.mpr ⟨b, hb, ?_⟩
  have hs2 : (resolveNodes exchanges queues ft).find? (matchesSource b.source) = some s := hs
  have ht2 : (resolveNodes exchanges queues ft).find? (matchesTarget b.destination) = some t := ht
  rw [edgeFor, hs2, ht2]

/-- Concrete instance: a queue-sourced binding emits an edge between two
queue nodes via the full-candidate-list resolution. -/
theorem C2_candidates_full_node_list_witness :
    ({ id := "b1", source := "q1", target := "q2", routingKey := "rk" } : Edge)
      ∈ (resolve [] [⟨"q1", "n1", "classic", 0, 0, 100⟩, ⟨"q2", "n2", "classic", 0, 0, 100⟩]
          [⟨"b1", "q1", "q2", "rk"⟩] FilterType.all).2 :=
  C2_candidates_full_node_list [] [⟨"q1", "n1", "classic", 0, 0, 100⟩, ⟨"q2", "n2", "classic", 0, 0, 100⟩]
    [⟨"b1", "q1", "q2", "rk"⟩] FilterType.all ⟨"b1", "q1", "q2", "rk"⟩ (by decide)
    (mkQueueNode 0 ⟨"q1", "n1", "classic", 0, 0, 100⟩)
    (mkQueueNode 1 ⟨"q2", "n2", "classic", 0, 0, 100⟩)
    (by decide) (by decide)

/-- Claim C3 as stated is false on the code: with `filterType = 'exchange'`
an edge can still be emitted, because a binding destination can resolve to
an exchange node by id (here `destination = 'e1'`). -/
theorem C3_counterexample :
    (resolve [⟨"e1", "orders", .direct⟩] [⟨"q1", "orders.q", "classic", 0, 0, 100⟩]
        [⟨"b1", "e1", "e1", "rk"⟩] FilterType.exchange).2 =
      [{ id := "b1", source := "e1", target := "e1", routingKey := "rk" }] := by
  decide

/-- Claim C3 (amended): `filterType = 'exchange'` yields zero queue nodes
(the node list is exactly the exchange nodes) and `filterType = 'queue'`
yields zero exchange nodes; the edge set is empty provided no binding's
destination (resp. source) matches any surviving node. -/
theorem C3_filter_behavior (exchanges : List Exchange) (queues : List Queue)
    (bindings : List Binding) :
    ((resolve exchanges queues bindings FilterType.exchange).1 =
        exchangeNodes exchanges FilterType.exchange ∧
      (∀ n ∈ (resolve exchanges queues bindings FilterType.exchange).1,
        n.type = NodeType.exchange) ∧
      ((∀ b ∈ bindings, ∀ n ∈ (resolve exchanges queues bindings FilterType.exchange).1,
          matchesTarget b.destination n = false) →
        (resolve exchanges queues bindings FilterType.exchange).2 = [])) ∧
    ((resolve exchanges queues bindings FilterType.queue).1 =
        queueNodes queues FilterType.queue ∧
      (∀ n ∈ (resolve exchanges queues bindings FilterType.queue).1,
        n.type = NodeType.queue) ∧
      ((∀ b ∈ bindings, ∀ n ∈ (resolve exchanges queues bindings FilterType.queue).1,
          matchesSource b.source n = false) →
        (resolve exchanges queues bindings FilterType.queue).2 = [])) := by
  have hn1 : (resolve exchanges queues bindings FilterType.exchange).1 =
      exchangeNodes exchanges FilterType.exchange := by
    show resolveNodes exchanges queues FilterType.exchange = _
    rw [resolveNodes, queueNodes_exchange_nil, List.append_nil]
  have hn2 : (resolve exchanges queues bindings FilterType.queue).1 =
      queueNodes queues FilterType.queue := by
    show resolveNodes exchanges queues FilterType.queue = _
    rw [resolveNodes, exchangeNodes_queue_nil, List.nil_append]
  refine ⟨⟨hn1, ?_, ?_⟩, ⟨hn2, ?_, ?_⟩⟩
  · intro n hn
    rw [hn1] at hn
    exact mem_exchangeNodes_type hn
  · intro h
    show bindings.filterMap (edgeFor (resolveNodes exchanges queues FilterType.exchange)) = []
    rw [List.filterMap_eq_nil_iff]
    intro b hb
    have ht : (resolveNodes exchanges queues FilterType.exchange).find?
        (matchesTarget b.destination) = none := by
      rw [List.find?_eq_none]
      intro x hx
      simp [h b hb x hx]
    cases hfs : (resolveNodes exchanges queues FilterType.exchange).find?
        (matchesSource b.source) <;> simp [edgeFor, hfs, ht]
  · intro n hn
    rw [hn2] at hn
    exact mem_queueNodes_type hn
  · intro h
    show bindings.filterMap (edgeFor (resolveNodes exchanges queues FilterType.queue)) = []
    rw [List.filterMap_eq_nil_iff]
    intro b hb
    have hsn : (resolveNodes exchanges queues FilterType.queue).find?
        (matchesSource b.source) = none := by
      rw [List.find?_eq_none]
      intro x hx
      simp [h b hb x hx]
    simp [edgeFor, hsn]

/-- Concrete instance: with filter 'exchange' and the spec's example
binding (whose destination names a queue), the edge set is empty. -/
theorem C3_filter_behavior_witness :
    (resolve [⟨"e1", "orders", .direct⟩] [⟨"q1", "orders.q", "classic", 10, 1, 90⟩]
        [⟨"b1", "orders", "orders.q", "order.created"⟩] FilterType.exchange).2 = [] :=
  (C3_filter_behavior [⟨"e1", "orders", .direct⟩] [⟨"q1", "orders.q", "classic", 10, 1, 90⟩]
    [⟨"b1", "orders", "orders.q", "order.created"⟩]).1.2.2 (by decide)

/-- Claim C4 as stated is false on the code: a display-name match on an
earlier node beats an id match on a later node. Here a node with id `x`
exists, yet the binding with `source = 'x'` resolves to node `e1`, whose
name is `x`. -/
theorem C4_counterexample :
    (resolve [⟨"e1", "x", .direct⟩, ⟨"x", "y", .direct⟩] []
        [⟨"b1", "x", "y", "rk"⟩] FilterType.all).2 =
      [{ id := "b1", source := "e1", target := "x", routingKey := "rk" }] ∧
    "x" ∈ (resolve [⟨"e1", "x", .direct⟩, ⟨"x", "y", .direct⟩] []
        [⟨"b1", "x", "y", "rk"⟩] FilterType.all).1.map Node.id := by
  decide

/-- Claim C4 (amended): endpoint resolution returns the first node in
node-list order that satisfies any of the three match strategies (id,
display name, or the type-guarded record name); every node strictly
earlier in the list fails all three strategies. The strategies are not
tried in priority order across nodes. -/
theorem C4_resolution_first_match (exchanges : List Exchange) (queues : List Queue)
    (bindings : List Binding) (ft : FilterType) (r : String) :
    (∀ n : Node,
      (resolve exchanges queues bindings ft).1.find? (matchesSource r) = some n →
      matchesSource r n = true ∧
      ∃ l₁ l₂, (resolve exchanges queues bindings ft).1 = l₁ ++ n :: l₂ ∧
        ∀ m ∈ l₁, matchesSource r m = false) ∧
    (∀ n : Node,
      (resolve exchanges queues bindings ft).1.find? (matchesTarget r) = some n →
      matchesTarget r n = true ∧
      ∃ l₁ l₂, (resolve exchanges queues bindings ft).1 = l₁ ++ n :: l₂ ∧
        ∀ m ∈ l₁, matchesTarget r m = false) :=
  ⟨fun _ h => find?_eq_some_split h, fun _ h => find?_eq_some_split h⟩

/-- Concrete instance: in the counterexample input, the first matching node
(`e1`, matched by display name) is the resolution result and satisfies the
match predicate. -/
theorem C4_resolution_first_match_witness :
    matchesSource "x" (mkExchangeNode 0 ⟨"e1", "x", ExchangeType.direct⟩) = true :=
  ((C4_resolution_first_match [⟨"e1", "x", .direct⟩, ⟨"x", "y", .direct⟩] []
      [⟨"b1", "x", "y", "rk"⟩] FilterType.all "x").1
    (mkExchangeNode 0 ⟨"e1", "x", ExchangeType.direct⟩) (by decide)).1

/-- Claim C5: the spec's end-to-end scenario: one exchange node at
(200, 120), one queue node at (650, 100), and one edge `b1` from `e1` to
`q1` with routing key `order.created`. -/
theorem C5_example_scenario :
    resolve [⟨"e1", "orders", .direct⟩]
      [⟨"q1", "orders.q", "classic", 10, 1, 90⟩]
      [⟨"b1", "orders", "orders.q", "order.created"⟩] FilterType.all =
    ([{ id := "e1", type := .exchange, name := "orders", x := 200, y := 120,
        data := .inl ⟨"e1", "orders", .direct⟩ },
      { id := "q1", type := .queue, name := "orders.q", x := 650, y := 100,
        data := .inr ⟨"q1", "orders.q", "classic", 10, 1, 90⟩ }],
     [{ id := "b1", source := "e1", target := "q1", routingKey := "order.created" }]) := by
  decide

/-- Claim C6: a binding with an endpoint matching no node produces no edge
and leaves everything else unchanged: dropping it from the binding list
gives the identical resolver output (nodes and the other bindings' edges). -/
theorem C6_unresolved_binding_dropped (exchanges : List Exchange) (queues : List Queue)
    (bs₁ bs₂ : List Binding) (b : Binding) (ft : FilterType)
    (h : (∀ n ∈ resolveNodes exchanges queues ft, matchesSource b.source n = false) ∨
         (∀ n ∈ resolveNodes exchanges queues ft, matchesTarget b.destination n = false)) :
    edgeFor (resolveNodes exchanges queues ft) b = none ∧
    resolve exchanges queues (bs₁ ++ b :: bs₂) ft = resolve exchanges queues (bs₁ ++ bs₂) ft := by
  have hnone : edgeFor (resolveNodes exchanges queues ft) b = none := by
    rcases h with h | h
    · have hsn : (resolveNodes exchanges queues ft).find? (matchesSource b.source) = none := by
        rw [List.find?_eq_none]
        intro x hx
        simp [h x hx]
      simp [edgeFor, hsn]
    · have htn : (resolveNodes exchanges queues ft).find? (matchesTarget b.destination) = none := by
        rw [List.find?_eq_none]
        intro x hx
        simp [h x hx]
      cases hfs : (resolveNodes exchanges queues ft).find? (matchesSource b.source) <;>
        simp [edgeFor, hfs, htn]
  refine ⟨hnone, ?_⟩
  have h2 : (bs₁ ++ b :: bs₂).filterMap (edgeFor (resolveNodes exchanges queues ft)) =
      (bs₁ ++ bs₂).filterMap (edgeFor (resolveNodes exchanges queues ft)) := by
    simp [List.filterMap_append, List.filterMap_cons, hnone]
  simp only [resolve, h2]

/-- Concrete instance: the spec's negative scenario — a binding whose
source is `nonexistent` yields no edge and its removal changes nothing. -/
theorem C6_unresolved_binding_dropped_witness :
    edgeFor (resolveNodes [⟨"e1", "orders", .direct⟩]
        [⟨"q1", "orders.q", "classic", 10, 1, 90⟩] FilterType.all)
      ⟨"b2", "nonexistent", "orders.q", "x"⟩ = none ∧
    resolve [⟨"e1", "orders", .direct⟩] [⟨"q1", "orders.q", "classic", 10, 1, 90⟩]
        [⟨"b2", "nonexistent", "orders.q", "x"⟩] FilterType.all =
      resolve [⟨"e1", "orders", .direct⟩] [⟨"q1", "orders.q", "classic", 10, 1, 90⟩]
        [] FilterType.all :=
  C6_unresolved_binding_dropped [⟨"e1", "orders", .direct⟩]
    [⟨"q1", "orders.q", "classic", 10, 1, 90⟩] [] []
    ⟨"b2", "nonexistent", "orders.q", "x"⟩ FilterType.all (Or.inl (by decide))

/-- Claim C7: from the default view state, any finite sequence of zoomIn,
zoomOut and resetView keeps zoom within [1/2, 2]; zoomIn computes
min(zoom + 1/5, 2) and zoomOut computes max(zoom - 1/5, 1/2). -/
theorem C7_zoom_clamped :
    (∀ ops : List ZoomOp,
        1/2 ≤ (applyZoomOps ops defaultViewState).zoom ∧
        (applyZoomOps ops defaultViewState).zoom ≤ 2) ∧
    (∀ s : ViewState, (zoomIn s).zoom = min (s.zoom + 1/5) 2) ∧
    (∀ s : ViewState, (zoomOut s).zoom = max (s.zoom - 1/5) (1/2)) :=
  ⟨fun ops => applyZoomOps_bounds ops defaultViewState
      (by norm_num [defaultViewState]) (by norm_num [defaultViewState]),
    fun _ => rfl, fun _ => rfl⟩

/-- Claim C8 as stated is false on the code: from a state where `q1` is
already selected, calling selectNode('q1') twice ends with `q1` selected,
not with the selection cleared. -/
theorem C8_counterexample :
    (selectNode "q1" (selectNode "q1"
      { defaultViewState with selectedNodeId := some "q1" })).selectedNodeId ≠ none := by
  decide

/-- Claim C8 (amended): selectNode toggles (selecting the selected node
clears the selection, selecting any other sets it); two successive
selectNode(i) calls end with no selection exactly when i was not already
selected, and end with i selected when it was. -/
theorem C8_selectNode_toggle (s : ViewState) (i : String) :
    ((selectNode i s).selectedNodeId =
        if s.selectedNodeId = some i then none else some i) ∧
    (s.selectedNodeId ≠ some i →
      (selectNode i (selectNode i s)).selectedNodeId = none) ∧
    (s.selectedNodeId = some i →
      (selectNode i (selectNode i s)).selectedNodeId = some i) := by
  refine ⟨rfl, ?_, ?_⟩
  · intro h
    simp [selectNode, h]
  · intro h
    simp [selectNode, h]

/-- Concrete instance: from the default state (nothing selected), two
selectNode('q1') calls end with no selection. -/
theorem C8_selectNode_toggle_witness :
    (selectNode "q1" (selectNode "q1" defaultViewState)).selectedNodeId = none :=
  (C8_selectNode_toggle defaultViewState "q1").2.1 (by decide)

/-- Claim C9: setFilterType replaces only the filterType field: zoom, pan,
showLabels and selectedNodeId are unchanged (unconditionally, hence also
when the selected node is no longer in the filtered node set). -/
theorem C9_setFilterType_frame (s : ViewState) (t : FilterType) :
    (setFilterType t s).zoom = s.zoom ∧
    (setFilterType t s).pan = s.pan ∧
    (setFilterType t s).showLabels = s.showLabels ∧
    (setFilterType t s).selectedNodeId = s.selectedNodeId ∧
    (setFilterType t s).filterType = t :=
  ⟨rfl, rfl, rfl, rfl, rfl⟩

/-- Claim C10: the resolver's node list is the exchange nodes followed by
the queue nodes, and whenever an exchange node matches a binding endpoint
reference, the lookup returns an exchange node (exchanges win ties). -/
theorem C10_exchange_priority (exchanges : List Exchange) (queues : List Queue)
    (bindings : List Binding) (ft : FilterType) :
    ((resolve exchanges queues bindings ft).1 =
        exchangeNodes exchanges ft ++ queueNodes queues ft ∧
      (∀ n ∈ exchangeNodes exchanges ft, n.type = NodeType.exchange) ∧
      (∀ n ∈ queueNodes queues ft, n.type = NodeType.queue)) ∧
    (∀ r : String,
      (∃ n ∈ (resolve exchanges queues bindings ft).1,
          n.type = NodeType.exchange ∧ matchesSource r n = true) →
      Option.map Node.type
          ((resolve exchanges queues bindings ft).1.find? (matchesSource r)) =
        some NodeType.exchange) ∧
    (∀ r : String,
      (∃ n ∈ (resolve exchanges queues bindings ft).1,
          n.type = NodeType.exchange ∧ matchesTarget r n = true) →
      Option.map Node.type
          ((resolve exchanges queues bindings ft).1.find? (matchesTarget r)) =
        some NodeType.exchange) := by
  refine ⟨⟨rfl, fun n h => mem_exchangeNodes_type h, fun n h => mem_queueNodes_type h⟩, ?_, ?_⟩
  · rintro r ⟨n, hmem, htype, hp⟩
    rcases List.mem_append.mp hmem with hA | hB
    · obtain ⟨m, hfind, hmA⟩ := find?_append_of_mem_left (queueNodes queues ft) hA hp
      show Option.map Node.type ((exchangeNodes exchanges ft ++ queueNodes queues ft).find?
        (matchesSource r)) = some NodeType.exchange
      rw [hfind]
      simp [mem_exchangeNodes_type hmA]
    · have hq := mem_queueNodes_type hB
      rw [htype] at hq
      exact absurd hq (by decide)
  · rintro r ⟨n, hmem, htype, hp⟩
    rcases List.mem_append.mp hmem with hA | hB
    · obtain ⟨m, hfind, hmA⟩ := find?_append_of_mem_left (queueNodes queues ft) hA hp
      show Option.map Node.type ((exchangeNodes exchanges ft ++ queueNodes queues ft).find?
        (matchesTarget r)) = some NodeType.exchange
      rw [hfind]
      simp [mem_exchangeNodes_type hmA]
    · have hq := mem_queueNodes_type hB
      rw [htype] at hq
      exact absurd hq (by decide)

/-- Concrete instance: the reference `dup` is both an exchange's name and a
queue's name; resolution returns the exchange node. -/
theorem C10_exchange_priority_witness :
    Option.map Node.type
      ((resolve [⟨"e1", "dup", .direct⟩] [⟨"q1", "dup", "classic", 0, 0, 100⟩] []
          FilterType.all).1.find? (matchesSource "dup")) = some NodeType.exchange :=
  (C10_exchange_priority [⟨"e1", "dup", .direct⟩] [⟨"q1", "dup", "classic", 0, 0, 100⟩] []
      FilterType.all).2.1 "dup"
    ⟨mkExchangeNode 0 ⟨"e1", "dup", .direct⟩, by decide, by decide, by decide⟩
